import Mathlib

/-!
Shallow embedding of the `ls-transpiler` core: the argument parser
(`src/args.rs`) and the translation engine (`src/translate.rs`).
Rust strings are modelled as Lean `String` (with character-level
operations made explicit on `List Char` where the Rust code uses
single-character patterns); the single environment read (`USERPROFILE`)
is passed explicitly as an `Option String` parameter.
-/

set_option maxHeartbeats 1000000

namespace Ls

/-- Color mode (`enum ColorOption` in `src/args.rs`); the default is `Auto`. -/
inductive ColorOption where
  | Auto
  | Always
  | Never
deriving DecidableEq, Repr

/-- The option set produced by the parser (`struct LsArgs` in `src/args.rs`).
`paths` is the ordered list of target paths. -/
structure LsArgs where
  long_format : Bool
  all : Bool
  almost_all : Bool
  human_readable : Bool
  one_per_line : Bool
  recursive : Bool
  directory : Bool
  classify : Bool
  show_size : Bool
  sort_by_time : Bool
  sort_by_size : Bool
  reverse : Bool
  no_sort : Bool
  color : ColorOption
  explain : Bool
  teach : Bool
  native : Bool
  use_powershell : Bool
  use_cmd : Bool
  help : Bool
  version : Bool
  rosetta : Bool
  tree : Bool
  paths : List String
deriving DecidableEq, Repr

/-- `LsArgs::default()`: every flag false, color `Auto`, no paths. -/
def LsArgs.default : LsArgs where
  long_format := false
  all := false
  almost_all := false
  human_readable := false
  one_per_line := false
  recursive := false
  directory := false
  classify := false
  show_size := false
  sort_by_time := false
  sort_by_size := false
  reverse := false
  no_sort := false
  color := ColorOption.Auto
  explain := false
  teach := false
  native := false
  use_powershell := false
  use_cmd := false
  help := false
  version := false
  rosetta := false
  tree := false
  paths := []

/-- Split a character list at the first `=` sign, as Rust's
`opt.find('=')` followed by slicing does in `parse_long_option`:
returns the part before the first `=` and, when an `=` is present,
the part after it. -/
def splitOnceEq : List Char → List Char × Option (List Char)
  | [] => ([], none)
  | c :: rest =>
    if c = '=' then ([], some rest)
    else
      let (n, v) := splitOnceEq rest
      (c :: n, v)

/-- The `--color` value vocabulary match in `parse_long_option`
(`src/args.rs` lines 111-118): `always`/`yes`/`force` mean `Always`,
`never`/`no`/`none` mean `Never`, `auto`/`tty`/`if-tty` or an absent
value mean `Auto`, and anything else is an unknown-color-option error. -/
def parseColorValue : Option String → Except String ColorOption
  | none => .ok ColorOption.Auto
  | some v =>
    if v = "always" || v = "yes" || v = "force" then .ok ColorOption.Always
    else if v = "never" || v = "no" || v = "none" then .ok ColorOption.Never
    else if v = "auto" || v = "tty" || v = "if-tty" then .ok ColorOption.Auto
    else .error ("Unknown color option: " ++ v)

/-- `LsArgs::parse_long_option`: strip the leading `--`, split on the
first `=` into a name and an optional inline value, then match the name
against the fixed long-option vocabulary; the inline value is used only
by `color` and silently discarded otherwise; an unrecognized name is an
error naming the option. -/
def parse_long_option (args : LsArgs) (opt : String) : Except String LsArgs :=
  let (nameCs, value) := splitOnceEq (opt.toList.drop 2)
  let name := String.mk nameCs
  if name = "all" then .ok {args with all := true}
  else if name = "almost-all" then .ok {args with almost_all := true}
  else if name = "human-readable" then .ok {args with human_readable := true}
  else if name = "recursive" then .ok {args with recursive := true}
  else if name = "directory" then .ok {args with directory := true}
  else if name = "classify" then .ok {args with classify := true}
  else if name = "reverse" then .ok {args with reverse := true}
  else if name = "color" then
    match parseColorValue (value.map String.mk) with
    | .error e => .error e
    | .ok c => .ok {args with color := c}
  else if name = "explain" then .ok {args with explain := true}
  else if name = "teach" then .ok {args with teach := true}
  else if name = "native" then .ok {args with native := true}
  else if name = "powershell" || name = "ps" then .ok {args with use_powershell := true}
  else if name = "cmd" then .ok {args with use_cmd := true}
  else if name = "help" then .ok {args with help := true}
  else if name = "version" then .ok {args with version := true}
  else if name = "rosetta" || name = "cheatsheet" then .ok {args with rosetta := true}
  else if name = "tree" then .ok {args with tree := true}
  else .error ("Unknown option: --" ++ name)

/-- The single-character short-option vocabulary of
`LsArgs::parse_short_options`. -/
def shortOptionChars : List Char :=
  ['l', 'a', 'A', 'h', '1', 'R', 'd', 'F', 's', 't', 'S', 'r', 'U', '?']

/-- The field update performed for one short-option character
(the match arms of `parse_short_options`); an unrecognized character
leaves the record unchanged (the caller errors out instead). -/
def applyShort (args : LsArgs) (c : Char) : LsArgs :=
  if c = 'l' then {args with long_format := true}
  else if c = 'a' then {args with all := true}
  else if c = 'A' then {args with almost_all := true}
  else if c = 'h' then {args with human_readable := true}
  else if c = '1' then {args with one_per_line := true}
  else if c = 'R' then {args with recursive := true}
  else if c = 'd' then {args with directory := true}
  else if c = 'F' then {args with classify := true}
  else if c = 's' then {args with show_size := true}
  else if c = 't' then {args with sort_by_time := true}
  else if c = 'S' then {args with sort_by_size := true}
  else if c = 'r' then {args with reverse := true}
  else if c = 'U' then {args with no_sort := true}
  else if c = '?' then {args with help := true}
  else args

/-- The left-to-right loop of `parse_short_options` over the characters
after the leading `-`: each recognized character sets its field, the
first unrecognized character aborts with an error naming it. -/
def parseShortChars (args : LsArgs) : List Char → Except String LsArgs
  | [] => .ok args
  | c :: rest =>
    if c ∈ shortOptionChars then parseShortChars (applyShort args c) rest
    else .error ("Unknown option: -" ++ String.mk [c])

/-- `LsArgs::parse_short_options`: interpret every character after the
leading `-` independently. -/
def parse_short_options (args : LsArgs) (opt : String) : Except String LsArgs :=
  parseShortChars args (opt.toList.drop 1)

/-- The main token loop of `LsArgs::parse` (`src/args.rs` lines 63-82):
`--` sends every later token verbatim to the path list and stops flag
interpretation; a token starting with `--` is a long option; a token
starting with `-` and longer than one character is a short-option
bundle; anything else is a path. -/
def parseLoop (args : LsArgs) : List String → Except String LsArgs
  | [] => .ok args
  | arg :: rest =>
    match arg.toList with
    | ['-', '-'] => .ok {args with paths := args.paths ++ rest}
    | '-' :: '-' :: _ :: _ =>
      match parse_long_option args arg with
      | .error e => .error e
      | .ok a => parseLoop a rest
    | '-' :: _ :: _ =>
      match parse_short_options args arg with
      | .error e => .error e
      | .ok a => parseLoop a rest
    | _ => parseLoop {args with paths := args.paths ++ [arg]} rest

/-- `LsArgs::parse`: skip the program name, run the token loop, then
default the path list to `["."]` when no path was given. -/
def parse (argv : List String) : Except String LsArgs :=
  match parseLoop LsArgs.default (argv.drop 1) with
  | .error e => .error e
  | .ok r => .ok (if r.paths.isEmpty then {r with paths := ["."]} else r)

/-- Replace every forward slash with a backslash, as
`result.replace('/', "\\")` does in `to_windows_path`. -/
def winSlashes (s : String) : String :=
  String.mk (s.toList.map (fun c => if c = '/' then '\\' else c))

/-- Whether a string begins with the given character (Rust's
`starts_with('~')` with a character pattern). -/
def strStartsWithChar (s : String) (c : Char) : Bool :=
  match s.toList with
  | [] => false
  | a :: _ => a = c

/-- Replace the first occurrence of `~` by `rep`, as Rust's
`replacen('~', rep, 1)` does with a character pattern. -/
def replacen1 (rep : List Char) : List Char → List Char
  | [] => []
  | c :: rest => if c = '~' then rep ++ rest else c :: replacen1 rep rest

/-- `to_windows_path` (`src/translate.rs` lines 192-206), with the
`USERPROFILE` environment read passed in as `home`: forward slashes
become backslashes, then a leading `~` is replaced (first occurrence
only) by the home directory when it is available. -/
def to_windows_path (home : Option String) (path : String) : String :=
  let result := winSlashes path
  if strStartsWithChar result '~' then
    match home with
    | some h => String.mk (replacen1 h.toList result.toList)
    | none => result
  else result

/-- The space-quoting rule both command builders apply to every
normalized path before embedding it: wrap in double quotes when the
path contains a space (Rust's `win_path.contains(' ')`, modelled as
membership of the space character in the character list). -/
def quote_path (s : String) : String :=
  if ' ' ∈ s.toList then "\"" ++ s ++ "\"" else s

/-- The non-sort `dir` flags pushed by `build_dir_command`
(`src/translate.rs` lines 30-49), in push order: `/A` for hidden files,
`/S` for recursion, `/AD` for directories only, `/B` for bare format
when one-per-line is requested without long format. -/
def dirPreFlags (args : LsArgs) : List String :=
  (if args.all || args.almost_all then ["/A"] else []) ++
  (if args.recursive then ["/S"] else []) ++
  (if args.directory then ["/AD"] else []) ++
  (if args.one_per_line && !args.long_format then ["/B"] else [])

/-- The sort-order `dir` flag chosen by `build_dir_command`
(`src/translate.rs` lines 54-70): no-sort emits nothing, else time sort
emits `/OD` (reverse) or `/O-D`, else size sort emits `/OS` (reverse)
or `/O-S`, else plain reverse emits `/O-N`. -/
def dirSortFlags (args : LsArgs) : List String :=
  if args.no_sort then []
  else if args.sort_by_time then
    if args.reverse then ["/OD"] else ["/O-D"]
  else if args.sort_by_size then
    if args.reverse then ["/OS"] else ["/O-S"]
  else if args.reverse then ["/O-N"]
  else []

/-- The complete flag list accumulated by `build_dir_command`, in the
order the Rust code pushes the flags. -/
def build_dir_flags (args : LsArgs) : List String :=
  dirPreFlags args ++ dirSortFlags args

/-- `build_dir_command`: the base token `dir`, each flag separated by a
space, then each path normalized and quoted under the space rule. -/
def build_dir_command (home : Option String) (args : LsArgs) : String :=
  args.paths.foldl (fun c p => c ++ " " ++ quote_path (to_windows_path home p))
    ((build_dir_flags args).foldl (fun c f => c ++ " " ++ f) "dir")

/-- The `Get-ChildItem` parameters pushed by `build_powershell_command`
(`src/translate.rs` lines 98-111): `-Force`, `-Recurse`, `-Directory`. -/
def psParams (args : LsArgs) : List String :=
  (if args.all || args.almost_all then ["-Force"] else []) ++
  (if args.recursive then ["-Recurse"] else []) ++
  (if args.directory then ["-Directory"] else [])

/-- The part of the PowerShell command built before the sorting stage:
base token, parameters, then one `-Path` argument per normalized,
space-quoted path. -/
def psPreCommand (home : Option String) (args : LsArgs) : String :=
  args.paths.foldl (fun c p => c ++ " -Path " ++ quote_path (to_windows_path home p))
    ((psParams args).foldl (fun c pa => c ++ " " ++ pa) "Get-ChildItem")

/-- The sorting pipeline stage appended by `build_powershell_command`
(`src/translate.rs` lines 133-147); the empty string when no stage is
appended. -/
def psSortStage (args : LsArgs) : String :=
  if !args.no_sort then
    if args.sort_by_time then
      " | Sort-Object LastWriteTime" ++ (if !args.reverse then " -Descending" else "")
    else if args.sort_by_size then
      " | Sort-Object Length" ++ (if !args.reverse then " -Descending" else "")
    else if args.reverse then " | Sort-Object Name -Descending"
    else ""
  else ""

/-- The formatting pipeline stage appended by `build_powershell_command`
(`src/translate.rs` lines 150-154); the empty string when no stage is
appended. -/
def psFormatStage (args : LsArgs) : String :=
  if args.long_format then " | Format-Table Mode, LastWriteTime, Length, Name -AutoSize"
  else if args.one_per_line then " | Select-Object -ExpandProperty Name"
  else ""

/-- `build_powershell_command`: pre-sort part, then the sorting stage,
then the formatting stage, in the order the Rust code appends them. -/
def build_powershell_command (home : Option String) (args : LsArgs) : String :=
  psPreCommand home args ++ psSortStage args ++ psFormatStage args

/-- `build_description` (`src/translate.rs` lines 159-189): collect the
clauses in the fixed push order, then join with a comma and wrap in a
parenthetical after the base phrase; the base phrase alone when no
clause was pushed. -/
def build_description (args : LsArgs) : String :=
  let parts : List String := []
  let parts := if args.all then parts ++ ["show hidden files"] else parts
  let parts := if args.long_format then parts ++ ["long format"] else parts
  let parts := if args.recursive then parts ++ ["recursive"] else parts
  let parts := if args.sort_by_time then parts ++ ["sort by time"] else parts
  let parts := if args.sort_by_size then parts ++ ["sort by size"] else parts
  let parts := if args.reverse then parts ++ ["reverse order"] else parts
  let parts := if args.human_readable then parts ++ ["human-readable sizes"] else parts
  if parts.isEmpty then "list directory contents"
  else "list directory contents (" ++ String.intercalate ", " parts ++ ")"

/-- The translation result (`struct Translation` in `src/translate.rs`). -/
structure Translation where
  cmd_command : String
  powershell_command : String
  description : String
deriving DecidableEq, Repr

/-- `translate`: build both command strings and the description from one
option set. -/
def translate (home : Option String) (args : LsArgs) : Translation where
  cmd_command := build_dir_command home args
  powershell_command := build_powershell_command home args
  description := build_description args

/-! ## Helper lemmas -/

lemma mem_if_singleton (b : Bool) (x m : String) :
    (m ∈ if b = true then [x] else []) ↔ (b = true ∧ m = x) := by
  cases b <;> simp

/-- The five sort-order tokens the legacy command can emit. -/
def dirSortTokens : List String := ["/OD", "/O-D", "/OS", "/O-S", "/O-N"]

lemma sortTok_not_mem_pre (args : LsArgs) (m : String)
    (hm : m ∈ dirSortTokens) : m ∉ dirPreFlags args := by
  intro h
  simp only [dirPreFlags, List.mem_append, mem_if_singleton] at h
  fin_cases hm <;> simp_all

lemma dirSortFlags_length_le_one (args : LsArgs) : (dirSortFlags args).length ≤ 1 := by
  unfold dirSortFlags
  split_ifs <;> simp

lemma mem_dirSortFlags_sub (args : LsArgs) (m : String) (h : m ∈ dirSortFlags args) :
    m ∈ dirSortTokens := by
  unfold dirSortFlags at h
  split_ifs at h <;> simp_all [dirSortTokens]

/-! ## Claims -/

/-- C1: the legacy (dir) command's sort modifier follows strict precedence:
with no-sort set no sort modifier is emitted at all; otherwise sort-by-time
yields `/OD` under reverse and `/O-D` without; otherwise sort-by-size yields
`/OS` under reverse and `/O-S` without; otherwise reverse alone yields
`/O-N`; and the flag list never carries more than one sort modifier. -/
theorem C1_dir_sort_precedence : ∀ args : LsArgs,
    (args.no_sort = true → ∀ m ∈ dirSortTokens, m ∉ build_dir_flags args) ∧
    (args.no_sort = false → args.sort_by_time = true →
      (if args.reverse then "/OD" else "/O-D") ∈ build_dir_flags args) ∧
    (args.no_sort = false → args.sort_by_time = false → args.sort_by_size = true →
      (if args.reverse then "/OS" else "/O-S") ∈ build_dir_flags args) ∧
    (args.no_sort = false → args.sort_by_time = false → args.sort_by_size = false →
      args.reverse = true → "/O-N" ∈ build_dir_flags args) ∧
    ((build_dir_flags args).countP (fun m => dirSortTokens.contains m)) ≤ 1 := by
  intro args
  refine ⟨?_, ?_, ?_, ?_, ?_⟩
  · intro hns m hm hmem
    rcases List.mem_append.1 hmem with h1 | h1
    · exact sortTok_not_mem_pre args m hm h1
    · simp [dirSortFlags, hns] at h1
  · intro h1 h2
    apply List.mem_append_right
    cases hr : args.reverse <;> simp [dirSortFlags, h1, h2, hr]
  · intro h1 h2 h3
    apply List.mem_append_right
    cases hr : args.reverse <;> simp [dirSortFlags, h1, h2, h3, hr]
  · intro h1 h2 h3 h4
    apply List.mem_append_right
    simp [dirSortFlags, h1, h2, h3, h4]
  · rw [build_dir_flags, List.countP_append]
    have hp : (dirPreFlags args).countP (fun m => dirSortTokens.contains m) = 0 := by
      rw [List.countP_eq_zero]
      intro m hm hcont
      exact sortTok_not_mem_pre args m (by simpa using hcont) hm
    have hs : (dirSortFlags args).countP (fun m => dirSortTokens.contains m) ≤ 1 :=
      le_trans (List.countP_le_length _) (dirSortFlags_length_le_one args)
    omega

/-- C1 witness: with sort-by-time and sort-by-size both set (no reverse,
no no-sort), the legacy flag list carries `/O-D`. -/
theorem C1_dir_sort_precedence_witness :
    "/O-D" ∈ build_dir_flags {LsArgs.default with sort_by_time := true, sort_by_size := true} :=
  (C1_dir_sort_precedence
    {LsArgs.default with sort_by_time := true, sort_by_size := true}).2.1 rfl rfl

/-- C2: the modern (Get-ChildItem) command is the pre-sort part followed by
the sort stage and the format stage; the sort stage is empty under no-sort,
and otherwise follows precedence time over size over plain reverse, with
` -Descending` exactly when reverse is not set, and sorts by name descending
for reverse alone. -/
theorem C2_ps_sort_stage : ∀ (home : Option String) (args : LsArgs),
    (build_powershell_command home args
      = psPreCommand home args ++ psSortStage args ++ psFormatStage args) ∧
    (args.no_sort = true → psSortStage args = "") ∧
    (args.no_sort = false → args.sort_by_time = true →
      psSortStage args
        = " | Sort-Object LastWriteTime" ++ (if args.reverse then "" else " -Descending")) ∧
    (args.no_sort = false → args.sort_by_time = false → args.sort_by_size = true →
      psSortStage args
        = " | Sort-Object Length" ++ (if args.reverse then "" else " -Descending")) ∧
    (args.no_sort = false → args.sort_by_time = false → args.sort_by_size = false →
      args.reverse = true → psSortStage args = " | Sort-Object Name -Descending") := by
  intro home args
  refine ⟨rfl, ?_, ?_, ?_, ?_⟩
  · intro h1
    simp [psSortStage, h1]
  · intro h1 h2
    cases hr : args.reverse <;> simp [psSortStage, h1, h2, hr]
  · intro h1 h2 h3
    cases hr : args.reverse <;> simp [psSortStage, h1, h2, h3, hr]
  · intro h1 h2 h3 h4
    simp [psSortStage, h1, h2, h3, h4]

/-- C2 witness: with sort-by-time and sort-by-size both set and reverse off,
the modern command's sort stage sorts by LastWriteTime descending. -/
theorem C2_ps_sort_stage_witness :
    psSortStage {LsArgs.default with sort_by_time := true, sort_by_size := true}
      = " | Sort-Object LastWriteTime -Descending" :=
  (C2_ps_sort_stage none
    {LsArgs.default with sort_by_time := true, sort_by_size := true}).2.2.1 rfl rfl

/-- C3 counterexample: an option set whose only set flag is the almost-all
variant of show-hidden is described by the bare base phrase — contrary to
the claim, no show-hidden clause is emitted for almost-all. -/
theorem C3_description_counterexample :
    ({LsArgs.default with almost_all := true} : LsArgs).almost_all = true ∧
    build_description {LsArgs.default with almost_all := true}
      = "list directory contents" :=
  ⟨rfl, rfl⟩

/-- C3 (amended): the description joins with ", " the clauses for whichever
of show-hidden(all variant only), long-format, recursive, sort-by-time,
sort-by-size, reverse, human-readable are set, in that fixed order, appended
in parentheses to the base phrase; with none of them set it is exactly
"list directory contents"; the almost-all variant contributes no clause. -/
theorem C3_description_structure : ∀ args : LsArgs,
    build_description args =
      (let clauses := List.filterMap (fun pr => if pr.1 = true then some pr.2 else none)
        [(args.all, "show hidden files"), (args.long_format, "long format"),
         (args.recursive, "recursive"), (args.sort_by_time, "sort by time"),
         (args.sort_by_size, "sort by size"), (args.reverse, "reverse order"),
         (args.human_readable, "human-readable sizes")]
       if clauses = [] then "list directory contents"
       else "list directory contents (" ++ String.intercalate ", " clauses ++ ")") := by
  intro args
  obtain ⟨lf, al, aa, hr, op, rc, di, cl, ss, st, sS, rv, ns, co, ex, te, na, up, uc, he, ve, ro, tr, ps⟩ := args
  cases al <;> cases lf <;> cases rc <;> cases st <;> cases sS <;> cases rv <;> cases hr <;> rfl

/-- C4: path normalization replaces every forward slash with a backslash and,
when the string begins with `~` and the home variable is set, substitutes the
home value for the first `~` only, leaving `~` verbatim when it is unset;
`~/docs` with home `C:\Users\x` gives `C:\Users\x\docs`, `a/b c` gives
`a\b c`, and any normalized path containing a space is wrapped in double
quotes by the embedding rule both command builders use. -/
theorem C4_path_normalization : ∀ (home : Option String) (p : String),
    (to_windows_path (some "C:\\Users\\x") "~/docs" = "C:\\Users\\x\\docs") ∧
    (to_windows_path home "a/b c" = "a\\b c") ∧
    (quote_path (to_windows_path home "a/b c") = "\"a\\b c\"") ∧
    (to_windows_path none p = winSlashes p) ∧
    (strStartsWithChar (winSlashes p) '~' = false → to_windows_path home p = winSlashes p) ∧
    (∀ (hv : String) (t : List Char), (winSlashes p).toList = '~' :: t →
      to_windows_path (some hv) p = hv ++ String.mk t) ∧
    (∀ s : String, ' ' ∈ s.toList → quote_path s = "\"" ++ s ++ "\"") := by
  intro home p
  refine ⟨rfl, rfl, rfl, ?_, ?_, ?_, ?_⟩
  · simp only [to_windows_path]
    split
    · cases home <;> rfl
    · rfl
  · intro h
    simp [to_windows_path, h]
  · intro hv t ht
    have ht' : (winSlashes p).data = '~' :: t := ht
    have hstart : strStartsWithChar (winSlashes p) '~' = true := by
      simp [strStartsWithChar, String.toList, ht']
    simp only [to_windows_path, hstart, if_true]
    rw [show (winSlashes p).toList = '~' :: t from ht]
    simp only [replacen1, if_pos rfl]
    obtain ⟨l⟩ := hv
    rfl
  · intro s h
    have h' : ' ' ∈ s.data := h
    simp [quote_path, String.toList, h']

/-- C4 witness: a path beginning with `~` and containing a space is expanded
against the home value and double-quoted when embedded. -/
theorem C4_path_normalization_witness :
    to_windows_path none "x" = winSlashes "x" ∧
    to_windows_path (some "C:\\My Home") "~/d" = "C:\\My Home\\d" ∧
    quote_path "C:\\My Home\\d" = "\"C:\\My Home\\d\"" :=
  ⟨(C4_path_normalization none "x").2.2.2.1,
   (C4_path_normalization (some "C:\\My Home") "~/d").2.2.2.2.2.1 "C:\\My Home"
     ['\\', 'd'] rfl,
   (C4_path_normalization none "x").2.2.2.2.2.2 "C:\\My Home\\d" (by decide)⟩

lemma applyShort_comm (a : LsArgs) (c d : Char)
    (hc : c ∈ shortOptionChars) (hd : d ∈ shortOptionChars) :
    applyShort (applyShort a c) d = applyShort (applyShort a d) c := by
  fin_cases hc <;> fin_cases hd <;> rfl

lemma applyShort_idem (a : LsArgs) (c : Char) (hc : c ∈ shortOptionChars) :
    applyShort (applyShort a c) c = applyShort a c := by
  fin_cases hc <;> rfl

lemma parseShortChars_ok (cs : List Char) (args : LsArgs)
    (h : ∀ c ∈ cs, c ∈ shortOptionChars) :
    parseShortChars args cs = .ok (cs.foldl applyShort args) := by
  induction cs generalizing args with
  | nil => rfl
  | cons c rest ih =>
    have hc : c ∈ shortOptionChars := h c (List.mem_cons_self c rest)
    simp only [parseShortChars, if_pos hc, List.foldl_cons]
    exact ih (applyShort args c) (fun d hd => h d (List.mem_cons_of_mem c hd))

/-- C5: for valid short-option bundles, permuting the characters after the
leading `-` does not change the resulting option set, and a repeated
character yields the same option set as a single occurrence. -/
theorem C5_short_bundle_comm_idem : ∀ (args : LsArgs) (cs cs' : List Char) (c : Char),
    (∀ d ∈ cs, d ∈ shortOptionChars) →
    ((cs.Perm cs' →
      parse_short_options args (String.mk ('-' :: cs))
        = parse_short_options args (String.mk ('-' :: cs'))) ∧
     (c ∈ shortOptionChars →
      parse_short_options args (String.mk ('-' :: c :: c :: cs))
        = parse_short_options args (String.mk ('-' :: c :: cs)))) := by
  intro args cs cs' c hval
  constructor
  · intro hperm
    have hval' : ∀ d ∈ cs', d ∈ shortOptionChars := fun d hd =>
      hval d (hperm.mem_iff.mpr hd)
    show parseShortChars args cs = parseShortChars args cs'
    rw [parseShortChars_ok cs args hval, parseShortChars_ok cs' args hval']
    exact congrArg Except.ok
      (hperm.foldl_eq' (fun x hx y hy z => applyShort_comm z x y (hval x hx) (hval y hy)) args)
  · intro hc
    have h1 : ∀ d ∈ (c :: c :: cs), d ∈ shortOptionChars := by
      intro d hd
      rcases hd with _ | ⟨_, hd⟩
      · exact hc
      · rcases hd with _ | ⟨_, hd⟩
        · exact hc
        · exact hval d hd
    have h2 : ∀ d ∈ (c :: cs), d ∈ shortOptionChars := by
      intro d hd
      rcases hd with _ | ⟨_, hd⟩
      · exact hc
      · exact hval d hd
    show parseShortChars args (c :: c :: cs) = parseShortChars args (c :: cs)
    rw [parseShortChars_ok _ args h1, parseShortChars_ok _ args h2]
    simp only [List.foldl_cons, applyShort_idem args c hc]

/-- C5 witness: `-la` and `-al` parse alike, and `-rra` parses like `-ra`. -/
theorem C5_short_bundle_comm_idem_witness :
    parse_short_options LsArgs.default (String.mk ['-', 'l', 'a'])
      = parse_short_options LsArgs.default (String.mk ['-', 'a', 'l']) ∧
    parse_short_options LsArgs.default (String.mk ['-', 'r', 'r', 'a'])
      = parse_short_options LsArgs.default (String.mk ['-', 'r', 'a']) :=
  ⟨(C5_short_bundle_comm_idem LsArgs.default ['l', 'a'] ['a', 'l'] 'r'
      (by decide)).1 (by decide),
   (C5_short_bundle_comm_idem LsArgs.default ['a'] ['a'] 'r'
      (by decide)).2 (by decide)⟩

lemma parse_long_option_color_eq (args : LsArgs) (v : String) :
    parse_long_option args ("--color=" ++ v)
      = match parseColorValue (some v) with
        | .error e => .error e
        | .ok c => .ok {args with color := c} := rfl

lemma parseColorValue_unknown (v : String)
    (h1 : v ≠ "always") (h2 : v ≠ "yes") (h3 : v ≠ "force")
    (h4 : v ≠ "never") (h5 : v ≠ "no") (h6 : v ≠ "none")
    (h7 : v ≠ "auto") (h8 : v ≠ "tty") (h9 : v ≠ "if-tty") :
    parseColorValue (some v) = .error ("Unknown color option: " ++ v) := by
  simp [parseColorValue, h1, h2, h3, h4, h5, h6, h7, h8, h9]

/-- C6: parsing is all-or-nothing: the first invalid token aborts with the
descriptive error no matter what follows, an unknown long option names the
token, an unknown short character names the character, an unknown color
value names that value, and a failed parse never also yields an option
set. -/
theorem C6_parse_errors : ∀ (rest : List String) (v : String),
    (parse ("prog" :: "--bogus" :: rest) = .error "Unknown option: --bogus") ∧
    (parse ("prog" :: "-Z" :: rest) = .error "Unknown option: -Z") ∧
    (v ≠ "always" → v ≠ "yes" → v ≠ "force" → v ≠ "never" → v ≠ "no" →
     v ≠ "none" → v ≠ "auto" → v ≠ "tty" → v ≠ "if-tty" →
      parse ("prog" :: ("--color=" ++ v) :: rest)
        = .error ("Unknown color option: " ++ v)) ∧
    (∀ (argv : List String) (e : String) (r : LsArgs),
      parse argv = .error e → parse argv ≠ .ok r) := by
  intro rest v
  refine ⟨rfl, rfl, ?_, ?_⟩
  · intro h1 h2 h3 h4 h5 h6 h7 h8 h9
    have hplo : parse_long_option LsArgs.default ("--color=" ++ v)
        = .error ("Unknown color option: " ++ v) := by
      rw [parse_long_option_color_eq,
        parseColorValue_unknown v h1 h2 h3 h4 h5 h6 h7 h8 h9]
    have hloop : parseLoop LsArgs.default (("--color=" ++ v) :: rest)
        = match parse_long_option LsArgs.default ("--color=" ++ v) with
          | .error e => .error e
          | .ok a => parseLoop a rest := rfl
    have hparse : parse ("prog" :: ("--color=" ++ v) :: rest)
        = match parseLoop LsArgs.default (("--color=" ++ v) :: rest) with
          | .error e => .error e
          | .ok r => .ok (if r.paths.isEmpty then {r with paths := ["."]} else r) := rfl
    rw [hparse, hloop, hplo]
  · intro argv e r herr hok
    rw [herr] at hok
    exact Except.noConfusion hok

/-- C6 witness: `--color=sometimes` aborts the whole parse with the
unknown-color-option error naming `sometimes`. -/
theorem C6_parse_errors_witness :
    parse ["prog", "--color=" ++ "sometimes", "later"]
      = .error ("Unknown color option: " ++ "sometimes") :=
  (C6_parse_errors ["later"] "sometimes").2.2.1
    (by decide) (by decide) (by decide) (by decide) (by decide)
    (by decide) (by decide) (by decide) (by decide)

lemma parseLoop_all_paths (ps : List String) (acc : LsArgs)
    (h : ∀ p ∈ ps, p.toList.head? ≠ some '-') :
    parseLoop acc ps = .ok {acc with paths := acc.paths ++ ps} := by
  induction ps generalizing acc with
  | nil => simp [parseLoop]
  | cons p rest ih =>
    have hp : p.toList.head? ≠ some '-' := h p (List.mem_cons_self p rest)
    have hrest : ∀ q ∈ rest, q.toList.head? ≠ some '-' := fun q hq =>
      h q (List.mem_cons_of_mem p hq)
    rw [parseLoop]
    rcases hc : p.toList with _ | ⟨c, t⟩
    · rw [ih _ hrest]
      simp
    · have hcne : c ≠ '-' := by
        rw [hc] at hp
        simpa using hp
      split
      · next heq => rw [List.cons.injEq] at heq; exact absurd heq.1 hcne
      · next heq => rw [List.cons.injEq] at heq; exact absurd heq.1 hcne
      · next heq => rw [List.cons.injEq] at heq; exact absurd heq.1 hcne
      · rw [ih _ hrest]
        simp

/-- C7: a successful parse always yields a non-empty path list; with no
path token (empty argv or just the program name) the paths are exactly
`["."]`; path tokens are kept verbatim and in order with no default entry
appended, e.g. `parse ["prog", "-l", "./src"]` yields paths `["./src"]`. -/
theorem C7_paths_invariant :
    (∀ (argv : List String) (r : LsArgs), parse argv = .ok r → r.paths ≠ []) ∧
    (parse [] = .ok {LsArgs.default with paths := ["."]}) ∧
    (parse ["prog"] = .ok {LsArgs.default with paths := ["."]}) ∧
    (parse ["prog", "-l", "./src"]
      = .ok {LsArgs.default with long_format := true, paths := ["./src"]}) ∧
    (∀ ps : List String, ps ≠ [] → (∀ p ∈ ps, p.toList.head? ≠ some '-') →
      parse ("prog" :: ps) = .ok {LsArgs.default with paths := ps}) := by
  refine ⟨?_, rfl, rfl, rfl, ?_⟩
  · intro argv r h
    simp only [parse] at h
    rcases hpl : parseLoop LsArgs.default (argv.drop 1) with e | r0 <;> rw [hpl] at h
    · exact Except.noConfusion h
    · have hr : (if r0.paths.isEmpty then {r0 with paths := ["."]} else r0) = r := by
        injection h
      rcases hps : r0.paths with _ | ⟨q, qs⟩
      · rw [← hr]
        simp [List.isEmpty, hps]
      · rw [← hr]
        simp [List.isEmpty, hps]
  · intro ps hne hvalid
    have hloop : parseLoop LsArgs.default ps
        = .ok {LsArgs.default with paths := [] ++ ps} :=
      parseLoop_all_paths ps LsArgs.default hvalid
    simp only [parse, List.drop_succ_cons, List.drop_zero, hloop, List.nil_append]
    rcases ps with _ | ⟨q, qs⟩
    · exact absurd rfl hne
    · rfl

/-- C7 witness: two path tokens are kept verbatim, in order, with no
default entry; a pathless parse defaults to `["."]`. -/
theorem C7_paths_invariant_witness :
    parse ["prog", "b", "a"] = .ok {LsArgs.default with paths := ["b", "a"]} ∧
    ({LsArgs.default with paths := ["."]} : LsArgs).paths ≠ [] :=
  ⟨C7_paths_invariant.2.2.2.2 ["b", "a"] (by decide) (by decide),
   C7_paths_invariant.1 ["prog"] {LsArgs.default with paths := ["."]} rfl⟩

/-- C8: the legacy flag list carries `/B` exactly when one-per-line is set
and long-format is not; the modern command's formatting stage is the
Format-Table stage when long-format is set, the name-extraction stage when
only one-per-line is set, and empty otherwise — so long-format takes
precedence and the two treatments are never both present. -/
theorem C8_format_precedence : ∀ (home : Option String) (args : LsArgs),
    ("/B" ∈ build_dir_flags args
      ↔ (args.one_per_line = true ∧ args.long_format = false)) ∧
    (args.long_format = true →
      psFormatStage args = " | Format-Table Mode, LastWriteTime, Length, Name -AutoSize") ∧
    (args.long_format = false → args.one_per_line = true →
      psFormatStage args = " | Select-Object -ExpandProperty Name") ∧
    (args.long_format = false → args.one_per_line = false → psFormatStage args = "") ∧
    (build_powershell_command home args
      = psPreCommand home args ++ psSortStage args ++ psFormatStage args) := by
  intro home args
  refine ⟨?_, ?_, ?_, ?_, rfl⟩
  · have hs : "/B" ∉ dirSortFlags args := fun h => by
      have := mem_dirSortFlags_sub args "/B" h
      simp [dirSortTokens] at this
    rw [build_dir_flags]
    simp [dirPreFlags, mem_if_singleton, hs]
  · intro h
    simp [psFormatStage, h]
  · intro h1 h2
    simp [psFormatStage, h1, h2]
  · intro h1 h2
    simp [psFormatStage, h1, h2]

/-- C8 witness: with one-per-line and long-format both set, `/B` is absent
from the legacy flags and the modern format stage is the Format-Table one. -/
theorem C8_format_precedence_witness :
    ¬("/B" ∈ build_dir_flags {LsArgs.default with one_per_line := true, long_format := true}) ∧
    psFormatStage {LsArgs.default with one_per_line := true, long_format := true}
      = " | Format-Table Mode, LastWriteTime, Length, Name -AutoSize" :=
  ⟨fun h =>
    Bool.noConfusion ((C8_format_precedence none
      {LsArgs.default with one_per_line := true, long_format := true}).1.mp h).2,
   (C8_format_precedence none
      {LsArgs.default with one_per_line := true, long_format := true}).2.1 rfl⟩

/-- C9: none of classify, show-size, color, explain, teach, native,
use-powershell, use-cmd, help, version, rosetta, or tree influences any part
of the translation: two option sets equal on every other field translate to
byte-equal results. -/
theorem C9_translation_noninterference : ∀ (home : Option String) (a b : LsArgs),
    a.long_format = b.long_format → a.all = b.all → a.almost_all = b.almost_all →
    a.human_readable = b.human_readable → a.one_per_line = b.one_per_line →
    a.recursive = b.recursive → a.directory = b.directory →
    a.sort_by_time = b.sort_by_time → a.sort_by_size = b.sort_by_size →
    a.reverse = b.reverse → a.no_sort = b.no_sort → a.paths = b.paths →
    translate home a = translate home b := by
  intro home a b h1 h2 h3 h4 h5 h6 h7 h8 h9 h10 h11 h12
  obtain ⟨lf, al, aa, hr, op, rc, di, cl, ss, st, sS, rv, ns, co, ex, te, na, up, uc, he, ve, ro, tr, ps⟩ := a
  obtain ⟨lf', al', aa', hr', op', rc', di', cl', ss', st', sS', rv', ns', co', ex', te', na', up', uc', he', ve', ro', tr', ps'⟩ := b
  dsimp only at h1 h2 h3 h4 h5 h6 h7 h8 h9 h10 h11 h12
  subst h1 h2 h3 h4 h5 h6 h7 h8 h9 h10 h11 h12
  rfl

/-- C9 witness: flipping classify, show-size, color, explain, teach, native,
use-powershell, use-cmd, help, version, rosetta and tree all at once leaves
the translation unchanged. -/
theorem C9_translation_noninterference_witness :
    translate none LsArgs.default
      = translate none {LsArgs.default with
          classify := true, show_size := true, color := ColorOption.Always,
          explain := true, teach := true, native := true, use_powershell := true,
          use_cmd := true, help := true, version := true, rosetta := true,
          tree := true} :=
  C9_translation_noninterference none LsArgs.default
    {LsArgs.default with
      classify := true, show_size := true, color := ColorOption.Always,
      explain := true, teach := true, native := true, use_powershell := true,
      use_cmd := true, help := true, version := true, rosetta := true, tree := true}
    rfl rfl rfl rfl rfl rfl rfl rfl rfl rfl rfl rfl

/-- C10: every recognized long option other than color accepts an inline
`=value` suffix for any value string, silently discarding the value: the
result is exactly that of the bare option, with no error. -/
theorem C10_inline_value_discarded : ∀ (args : LsArgs) (v name : String),
    name ∈ ["all", "almost-all", "human-readable", "recursive", "directory",
            "classify", "reverse", "explain", "teach", "native", "powershell",
            "ps", "cmd", "help", "version", "rosetta", "cheatsheet", "tree"] →
    ∃ r, parse_long_option args ("--" ++ name ++ "=" ++ v) = .ok r ∧
         parse_long_option args ("--" ++ name) = .ok r := by
  intro args v name hname
  fin_cases hname <;> exact ⟨_, rfl, rfl⟩

/-- C10 witness: `--all=whatever` parses exactly like `--all`. -/
theorem C10_inline_value_discarded_witness :
    ∃ r, parse_long_option LsArgs.default ("--" ++ "all" ++ "=" ++ "whatever") = .ok r ∧
         parse_long_option LsArgs.default ("--" ++ "all") = .ok r :=
  C10_inline_value_discarded LsArgs.default "whatever" "all" (by decide)

end Ls
